import Mathlib

/-!
Shallow embedding of `wscreensaver-bridge` (src/main.rs, src/xdg_login1.rs):
a D-Bus `org.freedesktop.ScreenSaver` bridge that stores active idle
inhibitors in a `HashMap<u32, StoredInhibitor>` keyed by a random cookie,
guarded by a `Mutex`, with a periodic heartbeat task that evicts inhibitors
whose D-Bus sender has disconnected, and a shutdown drain.

Machine integers are modelled as `Nat` with explicit `< 2 ^ 32` bounds where
the u32 range matters.  The cookie map is modelled as an association list
with HashMap semantics (`insert` overwrites, keys unique).  The random
number generator (`fastrand::u32(..)`) is modelled as an arbitrary stream of
values below `2 ^ 32`, supplied as a list.  Fallible backend calls are
modelled by explicit outcome parameters.
-/

/-- Caller identity: the transport-level `zbus::names::UniqueName` of the
D-Bus sender, abstracted to a `Nat`. -/
abbrev Sender := Nat

/-- Backend inhibitor handle: abstracts the `ZwpIdleInhibitorV1` protocol
object (wayland feature) or the `zvariant::OwnedFd` lease (systemd feature),
main.rs lines 34-42. -/
abbrev Handle := Nat

/-- main.rs lines 34-42: one stored inhibition record, holding the D-Bus
sender that created it and the backend handle. -/
structure StoredInhibitor where
  sender : Sender
  inhibitor : Handle
deriving DecidableEq, Repr

/-- main.rs line 51: the `inhibitors_by_cookie : HashMap<u32, StoredInhibitor>`
map, modelled as an association list from cookie to record. -/
abbrev Store := List (Nat × StoredInhibitor)

/-- `HashMap::contains_key` on the cookie map (main.rs line 61). -/
def contains_key (s : Store) (c : Nat) : Bool :=
  s.any (fun e => e.1 == c)

/-- `HashMap::entry(cookie)` lookup (main.rs line 133): `some r` models
`Entry::Occupied`, `none` models `Entry::Vacant`. -/
def entryOf : Store → Nat → Option StoredInhibitor
  | [], _ => none
  | (k, v) :: t, c => if k = c then some v else entryOf t c

/-- Removal of a key, as done by `Entry::Occupied::remove` (main.rs line 136)
and implicitly by HashMap insert-overwrite semantics. -/
def removeKey : Store → Nat → Store
  | [], _ => []
  | (k, v) :: t, c => if k = c then removeKey t c else (k, v) :: removeKey t c

/-- `HashMap::insert` (main.rs line 68): overwrite semantics. -/
def insertEntry (s : Store) (c : Nat) (v : StoredInhibitor) : Store :=
  (c, v) :: removeKey s c

/-- The list of cookies currently in the store. -/
def keysOf (s : Store) : List Nat :=
  s.map Prod.fst

/-- The HashMap representation invariant: keys are pairwise distinct. -/
def keysNodup (s : Store) : Prop :=
  (keysOf s).Nodup

instance (s : Store) : Decidable (keysNodup s) := by
  unfold keysNodup; infer_instance

/-- main.rs lines 57-65: the cookie-generation loop.  Each iteration draws
`fastrand::u32(..)` (modelled by consuming the head of `rng`), locks the map,
checks `contains_key`, and breaks on a fresh cookie.  `none` models the case
where the supplied random stream never produces a fresh cookie. -/
def findFreshCookie (s : Store) : List Nat → Option Nat
  | [] => none
  | c :: rest => if contains_key s c then findFreshCookie s rest else some c

/-- main.rs lines 55-70, `insert_inhibitor`: find a fresh cookie by the retry
loop, then lock the map again and insert.  Returns the cookie and the
updated map. -/
def insert_inhibitor (s : Store) (inh : StoredInhibitor) (rng : List Nat) :
    Option (Nat × Store) :=
  match findFreshCookie s rng with
  | none => none
  | some c => some (c, insertEntry s c inh)

/-- Outcome of `un_inhibit` (main.rs lines 122-154): `ok` is the `Ok(())`
reply, `notFound` the `fdo::Error::Failed("No inhibitor with cookie ...")`
reply from the vacant branch, `destroyFailed` the
`fdo::Error::Failed("Failed to destroy inhibitor ...")` reply. -/
inductive UnInhibitResult
  | ok
  | notFound
  | destroyFailed
deriving DecidableEq, Repr

/-- Result record of one `un_inhibit` call: the D-Bus reply, the map
afterwards, and the handles passed to `destroy_inhibitor`. -/
structure UnInhibitOut where
  result : UnInhibitResult
  store : Store
  destroyed : List Handle
deriving DecidableEq, Repr

/-- main.rs lines 122-154, `un_inhibit`: lock the map; on an occupied entry
remove it, then call `destroy_inhibitor` on its handle (outcome modelled by
`destroyOk`); on failure the error is returned but the removal stands.  On a
vacant entry reply not-found.  The caller identity `caller` (the message
header's sender, line 121) is only logged by the code and never compared to
the stored `sender`, which the model mirrors by not using it. -/
def un_inhibit (s : Store) (caller : Sender) (cookie : Nat) (destroyOk : Bool) :
    UnInhibitOut :=
  match entryOf s cookie with
  | some r =>
      if destroyOk then ⟨.ok, removeKey s cookie, [r.inhibitor]⟩
      else ⟨.destroyFailed, removeKey s cookie, [r.inhibitor]⟩
  | none => ⟨.notFound, s, []⟩

/-- Outcome of `inhibit` (main.rs lines 76-119): missing sender header
(lines 83-87), backend create failure (lines 89-103), store insertion
failure (lines 105-114), or success with a cookie. -/
inductive InhibitResult
  | noSender
  | backendFailed
  | storeFailed
  | ok (cookie : Nat)
deriving DecidableEq, Repr

/-- Result record of one `inhibit` call: the D-Bus reply, the map
afterwards, and whether the backend create call was reached. -/
structure InhibitOut where
  result : InhibitResult
  store : Store
  backendCreateCalled : Bool
deriving DecidableEq, Repr

/-- main.rs lines 76-119, `inhibit`: if the message header carries no
sender, fail before anything else; otherwise create the backend inhibitor
(outcome modelled by `backendResult`, `none` = creation error) and store it
under a fresh cookie via `insert_inhibitor`. -/
def inhibit (sender : Option Sender) (backendResult : Option Handle)
    (rng : List Nat) (s : Store) : InhibitOut :=
  match sender with
  | none => ⟨.noSender, s, false⟩
  | some snd =>
      match backendResult with
      | none => ⟨.backendFailed, s, true⟩
      | some h =>
          match insert_inhibitor s ⟨snd, h⟩ rng with
          | none => ⟨.storeFailed, s, true⟩
          | some (c, s') => ⟨.ok c, s', true⟩

/-- main.rs line 293: the `retain` predicate, true when the record's sender
is in the live-name set queried from the bus. -/
def senderAlive (names : List Sender) (e : Nat × StoredInhibitor) : Bool :=
  names.contains e.2.sender

/-- Result record of one heartbeat timer tick (main.rs lines 281-316):
whether `list_names` was queried, the map afterwards, and the
(cookie, handle) pairs passed to `destroy_inhibitor`. -/
structure TickResult where
  queriedNames : Bool
  store : Store
  destroyed : List (Nat × Handle)
deriving DecidableEq, Repr

/-- main.rs lines 281-316: one heartbeat tick.  Line 281 first try-locks the
map (`lock1ok`) and skips the tick unless the map is non-empty; then
`list_names` is queried; then the map is try-locked again (`lock2ok`,
line 290; on contention the tick is abandoned) and `retain` keeps exactly
the records whose sender is in the queried name set, destroying the backend
handle of every evicted record as it goes. -/
def heartbeatTick (lock1ok lock2ok : Bool) (s : Store) (names : List Sender) :
    TickResult :=
  if lock1ok && !s.isEmpty then
    if lock2ok then
      ⟨true, s.filter (senderAlive names),
        (s.filter (fun e => !senderAlive names e)).map
          (fun e => (e.1, e.2.inhibitor))⟩
    else ⟨true, s, []⟩
  else ⟨false, s, []⟩

/-- main.rs lines 242-256: the shutdown drain.  `drain()` empties the map
and `destroy_inhibitor` is called on every drained record's handle.
Returns the emptied map and the (cookie, handle) pairs destroyed. -/
def shutdownDrain (s : Store) : Store × List (Nat × Handle) :=
  ([], s.map (fun e => (e.1, e.2.inhibitor)))

/-!
Event traces.  For the claims about the lock discipline the relevant
structure is the order of mutex acquisitions/releases, suspension points
(`.await`), backend calls, and map operations in each function body.  Each
trace below transliterates the statement order of the corresponding source
region of main.rs.
-/

/-- Atomic events of the program, at the granularity the lock-discipline
claims speak about.  `lock` covers both `Mutex::lock` and a successful
`Mutex::try_lock`; `transportQuery` is an awaited D-Bus call
(`DBusProxy::list_names`); `awaitPoint` is any other `.await`. -/
inductive Ev
  | lock
  | unlock
  | checkContains
  | insertOp
  | removeEntry
  | drainEntry
  | destroyBackend
  | transportQuery
  | awaitPoint
  | closeConnection
deriving DecidableEq, Repr

/-- main.rs lines 57-70, one successful iteration of `insert_inhibitor`:
line 60 locks the map, line 61 runs `contains_key` and the guard temporary
is dropped at the end of the `if` condition (before `break`), then lines
66-68 lock the map again and insert. -/
def insertInhibitorTrace : List Ev :=
  [.lock, .checkContains, .unlock, .lock, .insertOp, .unlock]

/-- main.rs lines 128-147, `un_inhibit` on an occupied entry (wayland
feature): line 128 locks the map into the guard `inhibitors_by_cookie`,
line 136 removes the entry, line 139 calls `destroy_inhibitor`, and the
guard is dropped when the match (and function body) ends. -/
def unInhibitOccupiedTrace : List Ev :=
  [.lock, .removeEntry, .destroyBackend, .unlock]

/-- main.rs lines 281-316, one heartbeat tick over a non-empty store with
both try-locks succeeding and one record evicted: line 281 try-locks the
map for the emptiness test (temporary guard, dropped at the end of the
condition), line 282 awaits `list_names`, line 290 try-locks again, and
inside the `retain` closure line 300 calls `destroy_inhibitor` before
the entry is dropped (return value `false`); the guard is released when
the match arm ends. -/
def heartbeatTickTrace : List Ev :=
  [.lock, .unlock, .transportQuery, .lock, .destroyBackend, .removeEntry,
   .unlock]

/-- main.rs lines 228-256, the tail of `main` after the termination signal,
with one record left to drain: line 228 awaits the terminator, line 231
awaits the heartbeat task, line 235 awaits `connection.close()`, line 244
locks the map, and lines 246-255 drain each entry and call
`destroy_inhibitor` on it; the guard is dropped at the end of the block. -/
def mainShutdownTrace : List Ev :=
  [.awaitPoint, .awaitPoint, .closeConnection, .lock, .drainEntry,
   .destroyBackend, .unlock]

/-- Checker for the lock discipline the spec claims: scanning the trace
with the current lock depth, every backend destroy and every transport
query must happen at depth zero (lock released). -/
def lockFreeBackendCalls : List Ev → Nat → Bool
  | [], _ => true
  | .lock :: t, d => lockFreeBackendCalls t (d + 1)
  | .unlock :: t, d => lockFreeBackendCalls t (d - 1)
  | .destroyBackend :: t, d => d == 0 && lockFreeBackendCalls t d
  | .transportQuery :: t, d => d == 0 && lockFreeBackendCalls t d
  | _ :: t, d => lockFreeBackendCalls t d

/-- Checker for the discipline the code actually documents (main.rs
line 50: the map mutex must not be held across await points): every
suspension point — awaited transport query or other `.await` — must happen
at lock depth zero. -/
def lockFreeSuspensions : List Ev → Nat → Bool
  | [], _ => true
  | .lock :: t, d => lockFreeSuspensions t (d + 1)
  | .unlock :: t, d => lockFreeSuspensions t (d - 1)
  | .transportQuery :: t, d => d == 0 && lockFreeSuspensions t d
  | .awaitPoint :: t, d => d == 0 && lockFreeSuspensions t d
  | _ :: t, d => lockFreeSuspensions t d

/-- True when some backend destroy in the trace happens while the lock is
held (lock depth nonzero). -/
def someDestroyUnderLock : List Ev → Nat → Bool
  | [], _ => false
  | .lock :: t, d => someDestroyUnderLock t (d + 1)
  | .unlock :: t, d => someDestroyUnderLock t (d - 1)
  | .destroyBackend :: t, d => d != 0 || someDestroyUnderLock t d
  | _ :: t, d => someDestroyUnderLock t d

/-- Checker for "the collision check and the insert happen inside one
critical section": after a `checkContains` whose cookie is used, no
`unlock` may occur before the matching `insertOp`.  The flag records a
pending check. -/
def checkThenInsertLocked : List Ev → Bool → Bool
  | [], _ => true
  | .checkContains :: t, _ => checkThenInsertLocked t true
  | .insertOp :: t, _ => checkThenInsertLocked t false
  | .unlock :: t, pending => !pending && checkThenInsertLocked t pending
  | _ :: t, pending => checkThenInsertLocked t pending

/-- Checker for the shutdown ordering: every drained entry and every
backend destroy happens only after the D-Bus connection was closed.  The
flag records whether `closeConnection` has been seen. -/
def closedBeforeDrain : List Ev → Bool → Bool
  | [], _ => true
  | .closeConnection :: t, _ => closedBeforeDrain t true
  | .drainEntry :: t, closed => closed && closedBeforeDrain t closed
  | .destroyBackend :: t, closed => closed && closedBeforeDrain t closed
  | _ :: t, closed => closedBeforeDrain t closed

/-!
Helper lemmas about the store operations.
-/

theorem contains_key_iff (s : Store) (c : Nat) :
    contains_key s c = true ↔ c ∈ keysOf s := by
  induction s with
  | nil => simp [contains_key, keysOf]
  | cons e t ih =>
    obtain ⟨k, v⟩ := e
    have hk : keysOf ((k, v) :: t) = k :: keysOf t := rfl
    rw [hk, List.mem_cons]
    simp only [contains_key, List.any_cons] at ih ⊢
    constructor
    · intro h
      rcases Bool.or_eq_true_iff.mp h with h1 | h1
      · exact Or.inl (beq_iff_eq.mp h1).symm
      · exact Or.inr (ih.mp h1)
    · intro h
      rcases h with h1 | h1
      · exact Bool.or_eq_true_iff.mpr (Or.inl (by simp [h1]))
      · exact Bool.or_eq_true_iff.mpr (Or.inr (ih.mpr h1))

theorem contains_key_false_iff (s : Store) (c : Nat) :
    contains_key s c = false ↔ c ∉ keysOf s := by
  rw [← Bool.not_eq_true, not_iff_not]
  exact contains_key_iff s c

theorem entryOf_eq_none_iff (s : Store) (c : Nat) :
    entryOf s c = none ↔ c ∉ keysOf s := by
  induction s with
  | nil => simp [entryOf, keysOf]
  | cons e t ih =>
    obtain ⟨k, v⟩ := e
    have hk : keysOf ((k, v) :: t) = k :: keysOf t := rfl
    rw [hk, List.mem_cons]
    by_cases h : k = c
    · simp [entryOf, h]
    · simp [entryOf, h, ih, Ne.symm h]

theorem entryOf_removeKey_self (s : Store) (c : Nat) :
    entryOf (removeKey s c) c = none := by
  induction s with
  | nil => rfl
  | cons e t ih =>
    obtain ⟨k, v⟩ := e
    by_cases h : k = c <;> simp [removeKey, h, entryOf, ih]

theorem entryOf_removeKey_ne (s : Store) (c k : Nat) (h : k ≠ c) :
    entryOf (removeKey s c) k = entryOf s k := by
  induction s with
  | nil => rfl
  | cons e t ih =>
    obtain ⟨k', v⟩ := e
    by_cases h1 : k' = c
    · subst h1
      simp [removeKey, entryOf, Ne.symm h, ih]
    · by_cases h2 : k' = k
      · subst h2
        simp [removeKey, h1, entryOf]
      · simp [removeKey, h1, entryOf, h2, ih]

theorem keysOf_removeKey_sublist (s : Store) (c : Nat) :
    (keysOf (removeKey s c)).Sublist (keysOf s) := by
  induction s with
  | nil => simp [removeKey, keysOf]
  | cons e t ih =>
    obtain ⟨k, v⟩ := e
    by_cases h : k = c
    · simpa [removeKey, keysOf, h] using ih.trans (List.sublist_cons_self _ _)
    · simpa [removeKey, keysOf, h] using ih.cons₂ k

theorem not_mem_keysOf_removeKey (s : Store) (c : Nat) :
    c ∉ keysOf (removeKey s c) := by
  rw [← entryOf_eq_none_iff]
  exact entryOf_removeKey_self s c

theorem keysNodup_removeKey (s : Store) (c : Nat) (h : keysNodup s) :
    keysNodup (removeKey s c) :=
  (keysOf_removeKey_sublist s c).nodup h

theorem keysNodup_insertEntry (s : Store) (c : Nat) (v : StoredInhibitor)
    (h : keysNodup s) : keysNodup (insertEntry s c v) := by
  have hk : keysOf (insertEntry s c v) = c :: keysOf (removeKey s c) := rfl
  unfold keysNodup
  rw [hk, List.nodup_cons]
  exact ⟨not_mem_keysOf_removeKey s c, keysNodup_removeKey s c h⟩

theorem findFreshCookie_spec (s : Store) (rng : List Nat) (c : Nat)
    (h : findFreshCookie s rng = some c) :
    contains_key s c = false ∧ c ∈ rng := by
  induction rng with
  | nil => simp [findFreshCookie] at h
  | cons x rest ih =>
    by_cases hx : contains_key s x
    · simp [findFreshCookie, hx] at h
      exact ⟨(ih h).1, List.mem_cons_of_mem _ (ih h).2⟩
    · simp [findFreshCookie, hx] at h
      subst h
      exact ⟨Bool.eq_false_iff.mpr hx, List.mem_cons_self _ _⟩

theorem keysOf_filter_sublist (s : Store) (p : Nat × StoredInhibitor → Bool) :
    (keysOf (s.filter p)).Sublist (keysOf s) :=
  (List.filter_sublist s).map Prod.fst

theorem entryOf_filter_of_true (s : Store) (p : Nat × StoredInhibitor → Bool)
    (c : Nat) (r : StoredInhibitor) (hnd : keysNodup s)
    (hmem : entryOf s c = some r) (hp : p (c, r) = true) :
    entryOf (s.filter p) c = some r := by
  induction s with
  | nil => simp [entryOf] at hmem
  | cons e t ih =>
    obtain ⟨k, v⟩ := e
    have hcons : keysOf ((k, v) :: t) = k :: keysOf t := rfl
    unfold keysNodup at hnd
    rw [hcons, List.nodup_cons] at hnd
    by_cases h : k = c
    · subst h
      rw [entryOf] at hmem
      simp only [if_pos rfl] at hmem
      injection hmem with hv
      subst hv
      rw [List.filter_cons, if_pos hp, entryOf, if_pos rfl]
    · rw [entryOf, if_neg h] at hmem
      rw [List.filter_cons]
      by_cases hkv : p (k, v)
      · rw [if_pos hkv, entryOf, if_neg h]
        exact ih hnd.2 hmem
      · rw [if_neg (by simpa using hkv)]
        exact ih hnd.2 hmem

theorem entryOf_filter_of_false (s : Store) (p : Nat × StoredInhibitor → Bool)
    (c : Nat) (r : StoredInhibitor) (hnd : keysNodup s)
    (hmem : entryOf s c = some r) (hp : p (c, r) = false) :
    entryOf (s.filter p) c = none := by
  induction s with
  | nil => simp [entryOf] at hmem
  | cons e t ih =>
    obtain ⟨k, v⟩ := e
    have hcons : keysOf ((k, v) :: t) = k :: keysOf t := rfl
    unfold keysNodup at hnd
    rw [hcons, List.nodup_cons] at hnd
    by_cases h : k = c
    · subst h
      rw [entryOf] at hmem
      simp only [if_pos rfl] at hmem
      injection hmem with hv
      subst hv
      rw [List.filter_cons, if_neg (by simpa using hp)]
      rw [entryOf_eq_none_iff]
      intro hc
      exact hnd.1 ((keysOf_filter_sublist t p).mem hc)
    · rw [entryOf, if_neg h] at hmem
      rw [List.filter_cons]
      by_cases hkv : p (k, v)
      · rw [if_pos hkv, entryOf, if_neg h]
        exact ih hnd.2 hmem
      · rw [if_neg (by simpa using hkv)]
        exact ih hnd.2 hmem

theorem count_destroyed_zero (s : Store) (p : Nat × StoredInhibitor → Bool)
    (c : Nat) (x : Handle) (h : c ∉ keysOf s) :
    ((s.filter p).map (fun e => (e.1, e.2.inhibitor))).count (c, x) = 0 := by
  induction s with
  | nil => simp
  | cons e t ih =>
    obtain ⟨k, v⟩ := e
    have hcons : keysOf ((k, v) :: t) = k :: keysOf t := rfl
    rw [hcons, List.mem_cons] at h
    push_neg at h
    rw [List.filter_cons]
    by_cases hkv : p (k, v)
    · rw [if_pos hkv, List.map_cons, List.count_cons]
      have hne : ((k : Nat), v.inhibitor) ≠ (c, x) := by
        intro hcontra
        exact h.1 (congrArg Prod.fst hcontra).symm
      simp only [beq_iff_eq, if_neg hne, Nat.add_zero]
      exact ih h.2
    · rw [if_neg (by simpa using hkv)]
      exact ih h.2

theorem count_destroyed_one (s : Store) (p : Nat × StoredInhibitor → Bool)
    (c : Nat) (r : StoredInhibitor) (hnd : keysNodup s)
    (hmem : entryOf s c = some r) (hp : p (c, r) = true) :
    ((s.filter p).map (fun e => (e.1, e.2.inhibitor))).count (c, r.inhibitor)
      = 1 := by
  induction s with
  | nil => simp [entryOf] at hmem
  | cons e t ih =>
    obtain ⟨k, v⟩ := e
    have hcons : keysOf ((k, v) :: t) = k :: keysOf t := rfl
    unfold keysNodup at hnd
    rw [hcons, List.nodup_cons] at hnd
    by_cases h : k = c
    · subst h
      rw [entryOf] at hmem
      simp only [if_pos rfl] at hmem
      injection hmem with hv
      subst hv
      rw [List.filter_cons, if_pos hp, List.map_cons, List.count_cons]
      simp only [beq_iff_eq, if_pos rfl]
      rw [count_destroyed_zero t p k v.inhibitor hnd.1]
      simp
    · rw [entryOf, if_neg h] at hmem
      rw [List.filter_cons]
      by_cases hkv : p (k, v)
      · rw [if_pos hkv, List.map_cons, List.count_cons]
        have hne : ((k : Nat), v.inhibitor) ≠ (c, r.inhibitor) := by
          intro hcontra
          exact h (congrArg Prod.fst hcontra)
        simp only [beq_iff_eq, if_neg hne, Nat.add_zero]
        exact ih hnd.2 hmem
      · rw [if_neg (by simpa using hkv)]
        exact ih hnd.2 hmem

/-- Pigeonhole: a store with pairwise-distinct keys all below `2 ^ 32` and
fewer than `2 ^ 32` entries leaves some u32 cookie unused. -/
theorem exists_fresh_cookie (s : Store) (hnd : keysNodup s)
    (hbound : ∀ k ∈ keysOf s, k < 2 ^ 32) (hlen : s.length < 2 ^ 32) :
    ∃ c, c < 2 ^ 32 ∧ contains_key s c = false := by
  have hnd' : (keysOf s).Nodup := hnd
  have hlenkeys : (keysOf s).length = s.length := by simp [keysOf]
  have hcard : (keysOf s).toFinset.card = s.length := by
    rw [List.toFinset_card_of_nodup hnd', hlenkeys]
  have hsub : (keysOf s).toFinset ⊆ Finset.range (2 ^ 32) := fun x hx =>
    Finset.mem_range.mpr (hbound x (List.mem_toFinset.mp hx))
  have hne2 : (keysOf s).toFinset ≠ Finset.range (2 ^ 32) := by
    intro h
    rw [h, Finset.card_range] at hcard
    omega
  obtain ⟨c, hcr, hcn⟩ :=
    Finset.exists_of_ssubset (hsub.ssubset_of_ne hne2)
  exact ⟨c, Finset.mem_range.mp hcr,
    (contains_key_false_iff s c).mpr (fun h => hcn (List.mem_toFinset.mpr h))⟩

/-!
The claims.
-/

/-- C1 (counterexample): on the store holding cookie 1 owned by sender 10,
an `UnInhibit` from the different sender 99 does not fail and does not
leave the record intact: the code removes the record and replies success,
because `un_inhibit` never compares the caller to the stored owner. -/
theorem c1_counterexample :
    entryOf [(1, (⟨10, 7⟩ : StoredInhibitor))] 1
        = some (⟨10, 7⟩ : StoredInhibitor) ∧
    (99 : Sender) ≠ 10 ∧
    un_inhibit [(1, (⟨10, 7⟩ : StoredInhibitor))] 99 1 true
        = ⟨.ok, [], [7]⟩ := by
  decide

/-- C1 (amended): `un_inhibit` performs no ownership check at all — its
outcome is independent of the caller identity, and a call from any identity
on a present cookie removes the record from the store. -/
theorem c1_no_ownership_check (s : Store) (a b : Sender) (cookie : Nat)
    (d : Bool) :
    un_inhibit s a cookie d = un_inhibit s b cookie d ∧
    ∀ r, entryOf s cookie = some r →
      (un_inhibit s a cookie d).store = removeKey s cookie ∧
      entryOf (un_inhibit s a cookie d).store cookie = none := by
  refine ⟨rfl, ?_⟩
  intro r hr
  unfold un_inhibit
  rw [hr]
  cases d <;> simp [entryOf_removeKey_self]

/-- C1 (witness): the amended theorem applied to the concrete store from
the counterexample. -/
theorem c1_no_ownership_check_witness :
    un_inhibit [(1, (⟨10, 7⟩ : StoredInhibitor))] 99 1 true
        = un_inhibit [(1, (⟨10, 7⟩ : StoredInhibitor))] 10 1 true ∧
    (un_inhibit [(1, (⟨10, 7⟩ : StoredInhibitor))] 99 1 true).store
        = removeKey [(1, (⟨10, 7⟩ : StoredInhibitor))] 1 :=
  ⟨(c1_no_ownership_check _ 99 10 1 true).1,
   ((c1_no_ownership_check _ 99 10 1 true).2 ⟨10, 7⟩ (by decide)).1⟩

/-- C2 (counterexample): the collision check and the insert of
`insert_inhibitor` are not performed inside one critical section: in the
function's event trace the mutex guard acquired for `contains_key` is
released (the guard temporary is dropped at the end of the `if` condition,
main.rs lines 59-64) before the second acquisition that performs the
insert (lines 66-68). -/
theorem c2_counterexample :
    checkThenInsertLocked insertInhibitorTrace false = false := by
  decide

/-- C2 (amended): the candidate cookie is drawn from the full u32 range and
retried while it collides with an active key, but the collision check and
the insert run in two separate critical sections; the operation contains no
suspension point, so on the program's single-threaded runtime it is still
effectively atomic: a returned cookie is fresh, lies below `2 ^ 32`, is
mapped to the new record, overwrites no existing record, and keeps the
store's keys pairwise distinct. -/
theorem c2_insert_fresh_cookie (s : Store) (inh : StoredInhibitor)
    (rng : List Nat) (c : Nat) (s' : Store)
    (h : insert_inhibitor s inh rng = some (c, s'))
    (hbound : ∀ x ∈ rng, x < 2 ^ 32) :
    contains_key s c = false ∧ c < 2 ^ 32 ∧
    entryOf s' c = some inh ∧
    (∀ k, k ≠ c → entryOf s' k = entryOf s k) ∧
    (keysNodup s → keysNodup s') := by
  unfold insert_inhibitor at h
  cases hf : findFreshCookie s rng with
  | none => rw [hf] at h; exact absurd h (by simp)
  | some c0 =>
    rw [hf] at h
    simp only [Option.some.injEq, Prod.mk.injEq] at h
    obtain ⟨hc, hs⟩ := h
    subst hc
    subst hs
    obtain ⟨hfree, hmemrng⟩ := findFreshCookie_spec s rng c0 hf
    refine ⟨hfree, hbound c0 hmemrng, ?_, ?_, ?_⟩
    · simp [insertEntry, entryOf]
    · intro k hk
      have hne : ¬ c0 = k := fun hx => hk hx.symm
      simp only [insertEntry, entryOf, if_neg hne]
      exact entryOf_removeKey_ne s c0 k hk
    · exact keysNodup_insertEntry s c0 inh

/-- C2 (witness): the amended theorem at the store holding cookie 0, with a
random stream that collides once and then draws the fresh cookie 1. -/
theorem c2_insert_fresh_cookie_witness :
    contains_key [(0, (⟨5, 6⟩ : StoredInhibitor))] 1 = false ∧
    (1 : Nat) < 2 ^ 32 ∧
    entryOf [(1, (⟨8, 9⟩ : StoredInhibitor)),
             (0, (⟨5, 6⟩ : StoredInhibitor))] 1
        = some (⟨8, 9⟩ : StoredInhibitor) ∧
    (∀ k, k ≠ 1 →
      entryOf [(1, (⟨8, 9⟩ : StoredInhibitor)),
               (0, (⟨5, 6⟩ : StoredInhibitor))] k
        = entryOf [(0, (⟨5, 6⟩ : StoredInhibitor))] k) ∧
    (keysNodup [(0, (⟨5, 6⟩ : StoredInhibitor))] →
      keysNodup [(1, (⟨8, 9⟩ : StoredInhibitor)),
                 (0, (⟨5, 6⟩ : StoredInhibitor))]) :=
  c2_insert_fresh_cookie [(0, ⟨5, 6⟩)] ⟨8, 9⟩ [0, 1] 1
    [(1, ⟨8, 9⟩), (0, ⟨5, 6⟩)] (by decide) (by decide)

/-- C3 (counterexample): the cookie-store lock is not released before the
backend destroy call in any of the three operations: in the event traces of
`un_inhibit` (occupied branch), of a heartbeat tick, and of the shutdown
drain, a `destroy_inhibitor` call occurs while the mutex is held. -/
theorem c3_counterexample :
    lockFreeBackendCalls unInhibitOccupiedTrace 0 = false ∧
    lockFreeBackendCalls heartbeatTickTrace 0 = false ∧
    lockFreeBackendCalls mainShutdownTrace 0 = false ∧
    someDestroyUnderLock unInhibitOccupiedTrace 0 = true := by
  decide

/-- C3 (amended): the discipline the code maintains is the one stated in
its own invariant comment (main.rs line 50): the lock is never held across
a suspension point — every awaited call, including the transport's
`list_names` query, runs with the lock released — but the synchronous
backend destroy calls in `un_inhibit`, in the heartbeat tick, and in the
shutdown drain are all made while the lock is held. -/
theorem c3_lock_free_suspensions :
    lockFreeSuspensions unInhibitOccupiedTrace 0 = true ∧
    lockFreeSuspensions heartbeatTickTrace 0 = true ∧
    lockFreeSuspensions mainShutdownTrace 0 = true ∧
    lockFreeSuspensions insertInhibitorTrace 0 = true ∧
    someDestroyUnderLock unInhibitOccupiedTrace 0 = true ∧
    someDestroyUnderLock heartbeatTickTrace 0 = true ∧
    someDestroyUnderLock mainShutdownTrace 0 = true := by
  decide

/-- C5: `un_inhibit` on a cookie with no stored record replies not-found
and leaves the store unchanged, destroying nothing. -/
theorem c5_uninhibit_not_found (s : Store) (caller : Sender) (cookie : Nat)
    (d : Bool) (h : entryOf s cookie = none) :
    un_inhibit s caller cookie d = ⟨.notFound, s, []⟩ := by
  unfold un_inhibit
  rw [h]

/-- C5 (witness): not-found on the empty store, and on a store holding only
a different cookie. -/
theorem c5_uninhibit_not_found_witness :
    un_inhibit [] 3 5 true = ⟨.notFound, [], []⟩ ∧
    un_inhibit [(1, (⟨10, 7⟩ : StoredInhibitor))] 3 5 false
        = ⟨.notFound, [(1, ⟨10, 7⟩)], []⟩ :=
  ⟨c5_uninhibit_not_found [] 3 5 true (by decide),
   c5_uninhibit_not_found [(1, ⟨10, 7⟩)] 3 5 false (by decide)⟩

/-- C6: when the backend destroy of a present record fails, `un_inhibit`
reports the failure but the removal stands: the record is gone from the
resulting store and a subsequent `un_inhibit` on the same cookie replies
not-found. -/
theorem c6_destroy_failure_removal_stands (s : Store) (caller caller2 : Sender)
    (cookie : Nat) (d2 : Bool) (r : StoredInhibitor)
    (hmem : entryOf s cookie = some r) :
    (un_inhibit s caller cookie false).result = .destroyFailed ∧
    (un_inhibit s caller cookie false).store = removeKey s cookie ∧
    (un_inhibit s caller cookie false).destroyed = [r.inhibitor] ∧
    (un_inhibit (un_inhibit s caller cookie false).store caller2 cookie
        d2).result = .notFound := by
  unfold un_inhibit
  rw [hmem]
  simp [entryOf_removeKey_self]

/-- C6 (witness): the theorem at the one-record store; the destroy failure
leaves an empty store and the retry is not-found. -/
theorem c6_destroy_failure_removal_stands_witness :
    (un_inhibit [(1, (⟨10, 7⟩ : StoredInhibitor))] 10 1 false).result
        = .destroyFailed ∧
    (un_inhibit [(1, (⟨10, 7⟩ : StoredInhibitor))] 10 1 false).store
        = removeKey [(1, (⟨10, 7⟩ : StoredInhibitor))] 1 ∧
    (un_inhibit [(1, (⟨10, 7⟩ : StoredInhibitor))] 10 1 false).destroyed
        = [7] ∧
    (un_inhibit (un_inhibit [(1, (⟨10, 7⟩ : StoredInhibitor))]
        10 1 false).store 10 1 true).result = .notFound :=
  c6_destroy_failure_removal_stands [(1, ⟨10, 7⟩)] 10 10 1 true ⟨10, 7⟩
    (by decide)

/-- C4: at a heartbeat tick where the reconciler obtains the store (both
try-locks succeed), every record whose sender is absent from the queried
live-name set is removed from the store and its backend handle is passed to
`destroy_inhibitor` exactly once, while every record whose sender is in the
live set is kept unchanged. -/
theorem c4_heartbeat_reconciliation (s : Store) (names : List Sender)
    (c : Nat) (r : StoredInhibitor) (hnd : keysNodup s)
    (hmem : entryOf s c = some r) (habs : r.sender ∉ names) :
    entryOf (heartbeatTick true true s names).store c = none ∧
    (heartbeatTick true true s names).destroyed.count (c, r.inhibitor) = 1 ∧
    (∀ c' r', entryOf s c' = some r' → r'.sender ∈ names →
      entryOf (heartbeatTick true true s names).store c' = some r') := by
  have hne : s.isEmpty = false := by
    cases s with
    | nil => simp [entryOf] at hmem
    | cons e t => rfl
  have htick : heartbeatTick true true s names =
      ⟨true, s.filter (senderAlive names),
        (s.filter (fun e => !senderAlive names e)).map
          (fun e => (e.1, e.2.inhibitor))⟩ := by
    simp [heartbeatTick, hne]
  rw [htick]
  have hdead : senderAlive names (c, r) = false := by
    simp only [senderAlive]
    simpa using habs
  refine ⟨?_, ?_, ?_⟩
  · exact entryOf_filter_of_false s (senderAlive names) c r hnd hmem hdead
  · exact count_destroyed_one s (fun e => !senderAlive names e) c r hnd hmem
      (by simp [hdead])
  · intro c' r' hmem' halive
    refine entryOf_filter_of_true s (senderAlive names) c' r' hnd hmem' ?_
    simp only [senderAlive]
    simpa using halive

/-- C4 (witness): a two-record store where sender 10 has disconnected and
sender 20 is still on the bus. -/
theorem c4_heartbeat_reconciliation_witness :
    entryOf (heartbeatTick true true
        [(1, (⟨10, 7⟩ : StoredInhibitor)), (2, (⟨20, 8⟩ : StoredInhibitor))]
        [20]).store 1 = none ∧
    (heartbeatTick true true
        [(1, (⟨10, 7⟩ : StoredInhibitor)), (2, (⟨20, 8⟩ : StoredInhibitor))]
        [20]).destroyed.count (1, 7) = 1 ∧
    (∀ c' r', entryOf [(1, (⟨10, 7⟩ : StoredInhibitor)),
        (2, (⟨20, 8⟩ : StoredInhibitor))] c' = some r' →
      r'.sender ∈ [20] →
      entryOf (heartbeatTick true true
          [(1, (⟨10, 7⟩ : StoredInhibitor)),
           (2, (⟨20, 8⟩ : StoredInhibitor))] [20]).store c' = some r') :=
  c4_heartbeat_reconciliation [(1, ⟨10, 7⟩), (2, ⟨20, 8⟩)] [20] 1 ⟨10, 7⟩
    (by decide) (by decide) (by decide)

/-- C7: the shutdown drain empties the store and hands each remaining
record's backend handle to the backend exactly once, and in the shutdown
event trace the D-Bus connection is closed before any entry is drained or
destroyed, so no new request is served once the drain begins. -/
theorem c7_shutdown_drain (s : Store) (c : Nat) (r : StoredInhibitor)
    (hnd : keysNodup s) (hmem : entryOf s c = some r) :
    (shutdownDrain s).1 = [] ∧
    (shutdownDrain s).2.count (c, r.inhibitor) = 1 ∧
    closedBeforeDrain mainShutdownTrace false = true := by
  refine ⟨rfl, ?_, by decide⟩
  have h := count_destroyed_one s (fun _ => true) c r hnd hmem rfl
  rw [List.filter_true] at h
  exact h

/-- C7 (witness): draining a two-record store destroys both handles, each
exactly once. -/
theorem c7_shutdown_drain_witness :
    (shutdownDrain [(1, (⟨10, 7⟩ : StoredInhibitor)),
        (2, (⟨20, 8⟩ : StoredInhibitor))]).1 = [] ∧
    (shutdownDrain [(1, (⟨10, 7⟩ : StoredInhibitor)),
        (2, (⟨20, 8⟩ : StoredInhibitor))]).2.count (1, 7) = 1 ∧
    closedBeforeDrain mainShutdownTrace false = true :=
  c7_shutdown_drain [(1, ⟨10, 7⟩), (2, ⟨20, 8⟩)] 1 ⟨10, 7⟩ (by decide)
    (by decide)

/-- C8: a heartbeat tick over an empty store — whatever the try-lock
outcomes and whatever names are on the bus — queries nothing and removes
nothing. -/
theorem c8_idle_skip (lock1ok lock2ok : Bool) (names : List Sender) :
    heartbeatTick lock1ok lock2ok [] names = ⟨false, [], []⟩ := by
  simp [heartbeatTick]

/-- C9: an `inhibit` call whose message header carries no sender fails with
an error before the backend create call is reached, leaving the store
unchanged. -/
theorem c9_no_sender (backendResult : Option Handle) (rng : List Nat)
    (s : Store) :
    inhibit none backendResult rng s = ⟨.noSender, s, false⟩ :=
  rfl

/-- C10: whenever the store holds fewer than `2 ^ 32` records (with the u32
key invariant), some draw of the random stream makes the cookie-generation
loop terminate; and over a store occupying every u32 value the loop would
never terminate, whatever u32 values the stream produces. -/
theorem c10_insert_loop_termination (s : Store) (hnd : keysNodup s)
    (hbound : ∀ k ∈ keysOf s, k < 2 ^ 32) (hlen : s.length < 2 ^ 32) :
    (∃ rng, (∀ x ∈ rng, x < 2 ^ 32) ∧
      (findFreshCookie s rng).isSome = true) ∧
    (∀ s2 : Store, (∀ x, x < 2 ^ 32 → contains_key s2 x = true) →
      ∀ rng, (∀ x ∈ rng, x < 2 ^ 32) → findFreshCookie s2 rng = none) := by
  constructor
  · obtain ⟨c, hclt, hcfree⟩ := exists_fresh_cookie s hnd hbound hlen
    refine ⟨[c], by simpa using hclt, ?_⟩
    simp [findFreshCookie, hcfree]
  · intro s2 hfull rng
    induction rng with
    | nil => intro _; rfl
    | cons x rest ih =>
      intro hb
      have hx : contains_key s2 x = true :=
        hfull x (hb x (List.mem_cons_self x rest))
      simp only [findFreshCookie, hx, if_pos]
      exact ih (fun y hy => hb y (List.mem_cons_of_mem x hy))

/-- C10 (witness): the theorem at a one-record store. -/
theorem c10_insert_loop_termination_witness :
    (∃ rng, (∀ x ∈ rng, x < 2 ^ 32) ∧
      (findFreshCookie [(0, (⟨1, 2⟩ : StoredInhibitor))] rng).isSome
        = true) ∧
    (∀ s2 : Store, (∀ x, x < 2 ^ 32 → contains_key s2 x = true) →
      ∀ rng, (∀ x ∈ rng, x < 2 ^ 32) → findFreshCookie s2 rng = none) :=
  c10_insert_loop_termination [(0, ⟨1, 2⟩)] (by decide) (by decide)
    (by norm_num)
